import Mathlib

/-!
Verification development for the usrp2 host session library
(`usrp2/host/include/usrp2/usrp2.h`).  The repository ships only the
public interface header; the engine behind it is specified in the design
document (wire codec, command/response transactions, streaming receive
pipeline with sequence accounting, streaming transmit pipeline with
fragmentation, discovery/session registry).  Each behavioural definition
below is therefore modelled from the spec, keeping the header's names
(`MAX_CHAN`, `start_rx_streaming`, `rx_overruns`, `tx_raw`, ...).
-/

/-! ## Byte-level helpers (big-endian integer fields) -/

/-- Byte width bound. -/
def byteMod : Nat := 256

/-- Big-endian encoding of a 16-bit value into two bytes. -/
def be16 (n : Nat) : List Nat := [n / 256 % 256, n % 256]

/-- Big-endian encoding of a 32-bit value into four bytes. -/
def be32 (n : Nat) : List Nat :=
  [n / 16777216 % 256, n / 65536 % 256, n / 256 % 256, n % 256]

/-- Value of two big-endian bytes. -/
def val2 (a b : Nat) : Nat := a * 256 + b

/-- Value of four big-endian bytes. -/
def val4 (a b c d : Nat) : Nat := ((a * 256 + b) * 256 + c) * 256 + d

/-! ## Per-channel streaming state and the session

The Session owns per-channel streaming state: streaming on/off, the
sequence-tracking cursor, and running overrun/missing-frame counters
(spec section 3, "Session"). -/

/-- Maximum number of independent streaming channels
(`static const unsigned int MAX_CHAN = 30` in the header). -/
def MAX_CHAN : Nat := 30

/-- Modelled from the spec: per-channel streaming state of a Session
(the `usrp2::impl` state is not in the repository).  Holds the
streaming on/off flag, the sequence-tracking cursor (next expected
sequence value, a 32-bit quantity) and the running overrun and
missing-frame counters. -/
structure chanState where
  streaming : Bool
  expected : Nat
  overruns : Nat
  missing : Nat
deriving Repr, DecidableEq

/-- Initial state of a channel: stopped, cursor and counters at zero. -/
def chanState.init : chanState := ⟨false, 0, 0, 0⟩

/-- Modelled from the spec: the session state behind the opaque
`usrp2::impl` pointer, as far as the streaming receive pipeline is
concerned: one `chanState` per channel. -/
structure session where
  chans : List chanState
deriving Repr, DecidableEq

/-- Session creation: all `MAX_CHAN` channels stopped with zeroed
counters (counters are reset only at Session creation). -/
def session.init : session := ⟨List.replicate MAX_CHAN chanState.init⟩

/-- A channel index is valid only in `[0, MAX_CHAN)`. -/
def validChan (ch : Nat) : Bool := ch < MAX_CHAN

/-- Accessor `rx_overruns()`: number of times receive overruns have
occurred, summed over the per-channel running counters. -/
def rx_overruns (s : session) : Nat := (s.chans.map chanState.overruns).sum

/-- Accessor `rx_missing()`: total number of missing frames from
overruns, summed over the per-channel running counters. -/
def rx_missing (s : session) : Nat := (s.chans.map chanState.missing).sum

/-- Modelled from the spec: size of a sequence gap.  The embedded
per-channel sequence counter is a 32-bit field; the gap between the
received sequence number and the expected next value is computed
modulo `2^32`.  A gap of zero means the frame is the expected one. -/
def seqGap (seqno expected : Nat) : Nat :=
  (seqno % 4294967296 + 4294967296 - expected % 4294967296) % 4294967296

/-- Modelled from the spec: processing of one inbound STREAM_DATA frame
by a channel.  While streaming, the frame's sequence number is compared
to the expected next value: a gap increments the overrun counter by one
and the missing-frame counter by the gap size, then processing continues
from the new sequence value.  Returns the new channel state and whether
the frame's samples were delivered to the consumer. -/
def stepChan (c : chanState) (seqno : Nat) : chanState × Bool :=
  if c.streaming then
    let g := seqGap seqno c.expected
    if g = 0 then
      ({ c with expected := (seqno + 1) % 4294967296 }, true)
    else
      ({ c with expected := (seqno + 1) % 4294967296,
                overruns := c.overruns + 1,
                missing := c.missing + g }, true)
  else (c, false)

/-- Update one channel's state in place, leaving the session unchanged
when the index is out of range. -/
def updChan (s : session) (ch : Nat) (f : chanState → chanState) : session :=
  if h : ch < s.chans.length then ⟨s.chans.set ch (f (s.chans.get ⟨ch, h⟩))⟩ else s

/-- Modelled from the spec: the streaming receive pipeline's handling of
one decoded inbound STREAM_DATA frame for a channel of the session.
Frames for a stopped (or out-of-range) channel deliver nothing and
change nothing. -/
def processStreamData (s : session) (ch seqno : Nat) : session × Bool :=
  (updChan s ch fun c => (stepChan c seqno).1,
   if h : ch < s.chans.length then (stepChan (s.chans.get ⟨ch, h⟩) seqno).2 else false)

/-- Feed a list of STREAM_DATA sequence numbers to one channel, counting
how many frames were delivered to the consumer. -/
def feedSeqs (s : session) (ch : Nat) : List Nat → session × Nat
  | [] => (s, 0)
  | q :: qs =>
    ((feedSeqs (processStreamData s ch q).1 ch qs).1,
     (if (processStreamData s ch q).2 then 1 else 0)
       + (feedSeqs (processStreamData s ch q).1 ch qs).2)

/-- Modelled from the spec: `start_rx_streaming(channel, ...)` sends a
STREAM_CONTROL start command (its success is the `cmdOk` argument) and,
on success, transitions the channel to STREAMING and resets that
channel's sequence-tracking cursor.  Fails on an invalid channel. -/
def start_rx_streaming (s : session) (ch : Nat) (cmdOk : Bool) : session × Bool :=
  if validChan ch && cmdOk && decide (ch < s.chans.length) then
    (updChan s ch fun c => { c with streaming := true, expected := 0 }, true)
  else (s, false)

/-- Modelled from the spec: `stop_rx_streaming(channel)` sends a
STREAM_CONTROL stop command and transitions the channel to STOPPED
regardless of the command's success (`cmdOk`), so the pipeline never
continues delivering to a consumer that asked to stop.  Fails on an
invalid channel. -/
def stop_rx_streaming (s : session) (ch : Nat) (cmdOk : Bool) : session × Bool :=
  if validChan ch then
    (updChan s ch fun c => { c with streaming := false }, cmdOk)
  else (s, false)

/-- Modelled from the spec: `rx_samples(channel, handler)` receives data
from the specified channel; it fails on an invalid channel index. -/
def rx_samples (s : session) (ch : Nat) : Bool :=
  if validChan ch then (s.chans.getD ch chanState.init).streaming else false

/-- Session after `start_rx_streaming(0)` succeeded on a fresh session:
channel 0 is STREAMING with its cursor expecting sequence value 0. -/
def startedSession : session := (start_rx_streaming session.init 0 true).1

/-- An operation on the session's streaming receive state, for stating
lifetime invariants of the counters. -/
inductive sessionOp where
  | startOp (ch : Nat) (cmdOk : Bool)
  | stopOp (ch : Nat) (cmdOk : Bool)
  | rxFrame (ch seqno : Nat)
deriving Repr, DecidableEq

/-- Apply one operation to the session state. -/
def applyOp (s : session) : sessionOp → session
  | .startOp ch ok => (start_rx_streaming s ch ok).1
  | .stopOp ch ok => (stop_rx_streaming s ch ok).1
  | .rxFrame ch q => (processStreamData s ch q).1

/-- Apply a sequence of operations to the session state. -/
def applyOps (s : session) (ops : List sessionOp) : session :=
  ops.foldl applyOp s

/-! ## Streaming transmit pipeline

Sample-format conversion, metadata flag attachment and fragmentation
(spec section 4.6). -/

/-- Tx Metadata value object: a hardware timestamp and the
start-of-burst / end-of-burst flags, supplied by the caller per call. -/
structure tx_metadata where
  timestamp : Nat
  start_of_burst : Bool
  end_of_burst : Bool
deriving Repr, DecidableEq

/-- One outbound frame produced by the transmit pipeline: its 32-bit
payload items and the burst flags attached to it. -/
structure txFragment where
  items : List Nat
  sob : Bool
  eob : Bool
  timestamp : Nat
deriving Repr, DecidableEq

/-- Fuel-bounded splitting into chunks of at most `m` items; the fuel
is an upper bound on the number of chunks. -/
def chunksOfFuel (m : Nat) : Nat → List Nat → List (List Nat)
  | _, [] => []
  | 0, l => [l]
  | fuel + 1, l => l.take m :: chunksOfFuel m fuel (l.drop m)

/-- Modelled from the spec: fragmentation of the raw item list into
chunks not exceeding the maximum payload item count `m` (a chunk per
`m` items, last one possibly shorter). -/
def chunksOf (m : Nat) (l : List Nat) : List (List Nat) :=
  if m = 0 then (if l = [] then [] else [l]) else chunksOfFuel m l.length l

/-- Attach burst flags to the chunks: the Tx Metadata's start-of-burst
flag goes only on the first fragment and the end-of-burst flag only on
the last fragment; every fragment carries the timestamp. -/
def attachFlags (md : tx_metadata) (total : Nat) : Nat → List (List Nat) → List txFragment
  | _, [] => []
  | i, c :: rest =>
    { items := c,
      sob := md.start_of_burst && decide (i = 0),
      eob := md.end_of_burst && decide (i + 1 = total),
      timestamp := md.timestamp } :: attachFlags md total (i + 1) rest

/-- Modelled from the spec: `tx_raw(channel, items, metadata)`.  Fails
(`none`) on an invalid channel; otherwise fragments the items into
frames of at most `maxPayloadItems` items each and attaches the burst
flags as above. -/
def tx_raw (ch : Nat) (maxPayloadItems : Nat) (items : List Nat)
    (md : tx_metadata) : Option (List txFragment) :=
  if validChan ch then
    some (attachFlags md (chunksOf maxPayloadItems items).length 0
      (chunksOf maxPayloadItems items))
  else none

/-- Upper bound of the 16-bit fixed-point range. -/
def fixedMax : Int := 32767

/-- Lower bound of the 16-bit fixed-point range. -/
def fixedMin : Int := -32768

/-- Modelled from the spec: conversion of one floating-point sample
component (value in `[-1.0, +1.0]`, modelled exactly as a rational) for
`tx_32fc`: scale by the channel's configured IQ scale factor, convert
to 16-bit fixed point at full scale, and clamp (saturate) to the
fixed-point range rather than wrapping around. -/
def scaleAndClamp (x : ℚ) (scale : ℚ) : Int :=
  max fixedMin (min fixedMax ⌊x * scale * 32768⌋)

/-- Modelled from the spec: conversion of one complex floating-point
sample by `tx_32fc` under IQ scale `(si, sq)`, yielding the 16-bit
fixed-point I and Q values. -/
def tx_32fc_convert (re im : ℚ) (si sq : ℚ) : Int × Int :=
  (scaleAndClamp re si, scaleAndClamp im sq)

/-! ## Command / response transaction engine (spec section 4.4) -/

/-- Reply behaviour of the device to one command attempt: silence
(the frame or its response was lost), an accepting response payload, or
a response carrying an explicit rejection code. -/
inductive devReply where
  | silent
  | accept (resp : List Nat)
  | reject
deriving Repr, DecidableEq

/-- Outcome of a command transaction. -/
inductive cmdResult where
  | ok (resp : List Nat)
  | commandRejected
  | commandTimeout
deriving Repr, DecidableEq

/-- Retry bound of the command engine: on timeout, retry up to this
fixed number of attempts before failing. -/
def retryBound : Nat := 3

/-- Modelled from the spec: the attempt loop of `send_command`.  Each
attempt sends the CONTROL_COMMAND frame carrying transaction id
`txnid` (the sends are accumulated so the wire behaviour is visible),
then consults the device's reply to that attempt: an accepting response
succeeds; a rejection code fails with `CommandRejected` immediately,
with no further retry; silence retries with the same transaction id
until the attempt bound is exhausted, then fails with `CommandTimeout`. -/
def sendCmdAttempts (device : Nat → devReply) (txnid : Nat) :
    Nat → Nat → cmdResult × List Nat
  | _, 0 => (.commandTimeout, [])
  | attempt, fuel + 1 =>
    match device attempt with
    | .accept r => (.ok r, [txnid])
    | .reject => (.commandRejected, [txnid])
    | .silent =>
      let rest := sendCmdAttempts device txnid (attempt + 1) fuel
      (rest.1, txnid :: rest.2)

/-- Modelled from the spec: `send_command` against a device whose reply
to attempt `k` is `device k`.  Returns the outcome and the list of
transaction ids sent on the wire, one per attempt made. -/
def send_command (device : Nat → devReply) (txnid : Nat) : cmdResult × List Nat :=
  sendCmdAttempts device txnid 0 retryBound

/-! ## Session registry (`usrp2::make` / `find_existing_or_make_new`)

The header documents the private static member as "retrieve or create
usrp2 instance": `make` resolves the interface/address pair to a device
and returns the already-existing instance for that device when there is
one. -/

/-- Instances are identified by the id of the underlying session
object; aliasing two handles means they carry the same id. -/
structure registry where
  entries : List (String × Nat)
  nextId : Nat
deriving Repr, DecidableEq

/-- Look up the session object registered for a device (keyed by its
resolved hardware address). -/
def findSession : List (String × Nat) → String → Option Nat
  | [], _ => none
  | (k, i) :: rest, key => if k = key then some i else findSession rest key

/-- Modelled from the spec: `find_existing_or_make_new` over the
registry of live instances.  If an instance already exists for the
device the address resolved to, return it unchanged; otherwise
construct a new instance, register it, and return it. -/
def find_existing_or_make_new (r : registry) (key : String) : Nat × registry :=
  match findSession r.entries key with
  | some i => (i, r)
  | none => (r.nextId, ⟨(key, r.nextId) :: r.entries, r.nextId + 1⟩)

/-! ## Wire codec (spec sections 4.1 and 6)

Fixed header `{frame_kind: uint8, transaction_or_sequence_id: uint32 BE,
channel: uint8, payload_length: uint16 BE}` followed by `payload_length`
bytes of kind-specific payload.  Bytes are modelled as `Nat` values
below 256. -/

/-- Kind-specific payload of a frame. -/
inductive payload where
  | discoveryQuery
  | discoveryResponse (addr : List Nat) (hwRev : Nat) (fpgaMd5 swMd5 : List Nat)
  | controlCommand (body : List Nat)
  | controlResponse (body : List Nat)
  | streamData (items : List Nat)
  | streamControl (startStop : Nat) (itemsPerFrame : Nat)
deriving Repr, DecidableEq

/-- A wire frame: transaction-or-sequence id, channel, and payload. -/
structure frame where
  xid : Nat
  channel : Nat
  body : payload
deriving Repr, DecidableEq

/-- Frame kind byte. -/
def kindCode : payload → Nat
  | .discoveryQuery => 1
  | .discoveryResponse .. => 2
  | .controlCommand _ => 3
  | .controlResponse _ => 4
  | .streamData _ => 5
  | .streamControl .. => 6

/-- Modelled from the spec: payload byte layout per kind.  The discovery
response payload is the address string (length-prefixed), the 16-bit
hardware revision and the two 16-byte digests; control payloads are
opaque bytes; streaming data is a sequence of big-endian `uint32`
items; stream control is a start/stop byte and the 32-bit
items-per-frame value. -/
def encodePayload : payload → List Nat
  | .discoveryQuery => []
  | .discoveryResponse addr hwRev f s => addr.length :: (addr ++ (be16 hwRev ++ (f ++ s)))
  | .controlCommand body => body
  | .controlResponse body => body
  | .streamData items => (items.map be32).flatten
  | .streamControl ss ipf => ss :: be32 ipf

/-- Modelled from the spec: `encode(frame_kind, fields) -> bytes`, the
fixed big-endian header followed by the payload bytes. -/
def encode (f : frame) : List Nat :=
  kindCode f.body :: be32 f.xid ++ f.channel :: be16 (encodePayload f.body).length
    ++ encodePayload f.body

/-- Group a byte list into big-endian 32-bit items; fails unless the
length is a multiple of four. -/
def chunk4 : List Nat → Option (List Nat)
  | [] => some []
  | a :: b :: c :: d :: rest => (chunk4 rest).map fun l => val4 a b c d :: l
  | _ => none

/-- Decode a discovery-response payload; fails unless the declared
address length is consistent with the payload length. -/
def decodeDiscoveryResponse : List Nat → Option payload
  | [] => none
  | n :: more =>
    if more.length = n + 34 then
      match more.drop n with
      | h1 :: h2 :: tail =>
        some (.discoveryResponse (more.take n) (val2 h1 h2) (tail.take 16) (tail.drop 16))
      | _ => none
    else none

/-- Decode a payload given the frame kind byte. -/
def decodePayload (k : Nat) (rest : List Nat) : Option payload :=
  if k = 1 then
    match rest with
    | [] => some .discoveryQuery
    | _ => none
  else if k = 2 then decodeDiscoveryResponse rest
  else if k = 3 then some (.controlCommand rest)
  else if k = 4 then some (.controlResponse rest)
  else if k = 5 then (chunk4 rest).map .streamData
  else if k = 6 then
    match rest with
    | [ss, a, b, c, d] => some (.streamControl ss (val4 a b c d))
    | _ => none
  else none

/-- Modelled from the spec: `decode(bytes) -> frame` or failure
(`MalformedFrame`, here `none`) when the length or the header is
inconsistent; the payload length is validated against the received
buffer length before interpretation. -/
def decode (bs : List Nat) : Option frame :=
  match bs with
  | k :: a :: b :: c :: d :: ch :: l1 :: l2 :: rest =>
    if rest.length = val2 l1 l2 then
      (decodePayload k rest).map fun p => ⟨val4 a b c d, ch, p⟩
    else none
  | _ => none

/-- A byte is a value below 256. -/
def byteOk (n : Nat) : Bool := n < 256

/-- Well-formedness of a payload's field values: all byte fields are
bytes, the digests are 16 bytes each, the address is short enough for
its length prefix, and the 16/32-bit fields are in range. -/
def wfPayload : payload → Bool
  | .discoveryQuery => true
  | .discoveryResponse addr hwRev f s =>
      addr.all byteOk && decide (addr.length < 256) && decide (hwRev < 65536) &&
      f.all byteOk && decide (f.length = 16) && s.all byteOk && decide (s.length = 16)
  | .controlCommand body => body.all byteOk
  | .controlResponse body => body.all byteOk
  | .streamData items => items.all fun i => decide (i < 4294967296)
  | .streamControl ss ipf => byteOk ss && decide (ipf < 4294967296)

/-- Well-formedness of a frame: id fits 32 bits, channel fits a byte,
the payload fields are in range and the payload fits the 16-bit length
field. -/
def wfFrame (f : frame) : Bool :=
  decide (f.xid < 4294967296) && byteOk f.channel && wfPayload f.body &&
    decide ((encodePayload f.body).length < 65536)

/-! ## Codec lemmas -/

theorem val2_be16 (n : Nat) (h : n < 65536) : val2 (n / 256 % 256) (n % 256) = n := by
  unfold val2
  omega

theorem val4_be32 (n : Nat) (h : n < 4294967296) :
    val4 (n / 16777216 % 256) (n / 65536 % 256) (n / 256 % 256) (n % 256) = n := by
  unfold val4
  omega

theorem chunk4_flatten (items : List Nat)
    (h : ∀ i ∈ items, i < 4294967296) :
    chunk4 ((items.map be32).flatten) = some items := by
  induction items with
  | nil => rfl
  | cons x xs ih =>
    have hx : x < 4294967296 := h x (List.mem_cons_self x xs)
    simp only [List.map_cons, List.flatten_cons, be32, List.cons_append, List.nil_append]
    rw [chunk4]
    rw [ih fun i hi => h i (List.mem_cons_of_mem x hi)]
    simp [val4_be32 x hx]

theorem decodePayload_encodePayload (p : payload) (h : wfPayload p = true) :
    decodePayload (kindCode p) (encodePayload p) = some p := by
  cases p with
  | discoveryQuery => rfl
  | discoveryResponse addr hwRev f s =>
    simp only [wfPayload, Bool.and_eq_true, decide_eq_true_eq, List.all_eq_true] at h
    obtain ⟨⟨⟨⟨⟨⟨ha, hlen⟩, hrev⟩, hfb⟩, hf16⟩, hsb⟩, hs16⟩ := h
    show decodeDiscoveryResponse (encodePayload (.discoveryResponse addr hwRev f s)) = _
    simp only [encodePayload, decodeDiscoveryResponse]
    have hL : (addr ++ (be16 hwRev ++ (f ++ s))).length = addr.length + 34 := by
      simp [List.length_append, be16, hf16, hs16]
    rw [if_pos hL, List.drop_left, List.take_left]
    simp only [be16, List.cons_append, List.nil_append]
    rw [show (16 : Nat) = f.length from hf16.symm, List.take_left, List.drop_left]
    rw [val2_be16 hwRev hrev]
  | controlCommand body => rfl
  | controlResponse body => rfl
  | streamData items =>
    simp only [wfPayload, List.all_eq_true, decide_eq_true_eq] at h
    show (chunk4 ((items.map be32).flatten)).map payload.streamData
        = some (.streamData items)
    rw [chunk4_flatten items h]
    rfl
  | streamControl ss ipf =>
    simp only [wfPayload, Bool.and_eq_true, decide_eq_true_eq] at h
    show some (payload.streamControl ss (val4 (ipf / 16777216 % 256) (ipf / 65536 % 256)
        (ipf / 256 % 256) (ipf % 256))) = some (.streamControl ss ipf)
    rw [val4_be32 ipf h.2]

/-- Claim C3: round-trip of the wire codec.  For every well-formed frame
of each of the six kinds, decoding the encoding yields exactly the
original frame kind and field values: `decode (encode x) = some x`. -/
theorem C3_decode_encode_roundtrip (f : frame) (h : wfFrame f = true) :
    decode (encode f) = some f := by
  obtain ⟨xid, ch, p⟩ := f
  simp only [wfFrame, Bool.and_eq_true, decide_eq_true_eq] at h
  obtain ⟨⟨⟨hxid, hch⟩, hp⟩, hlen⟩ := h
  simp only [encode, be32, be16, List.cons_append, List.nil_append]
  simp only [decode]
  rw [val2_be16 (encodePayload p).length hlen, if_pos rfl]
  rw [decodePayload_encodePayload p hp]
  simp only [Option.map_some']
  rw [val4_be32 xid hxid]

/-- Witness for C3: a concrete well-formed discovery-response frame
round-trips through the codec. -/
theorem C3_witness :
    wfFrame ⟨700, 2, .discoveryResponse [10, 20] 999 (List.replicate 16 3)
        (List.replicate 16 4)⟩ = true ∧
    decode (encode ⟨700, 2, .discoveryResponse [10, 20] 999 (List.replicate 16 3)
        (List.replicate 16 4)⟩)
      = some ⟨700, 2, .discoveryResponse [10, 20] 999 (List.replicate 16 3)
        (List.replicate 16 4)⟩ :=
  ⟨by decide, C3_decode_encode_roundtrip _ (by decide)⟩

/-! ## Session lemmas -/

theorem sum_map_set_eq (g : chanState → Nat) (l : List chanState) (n : Nat) (v : chanState)
    (hv : ∀ h : n < l.length, g v = g (l.get ⟨n, h⟩)) :
    ((l.set n v).map g).sum = (l.map g).sum := by
  induction l generalizing n with
  | nil => simp
  | cons x xs ih =>
    cases n with
    | zero =>
      have hx : g v = g x := hv (Nat.succ_pos _)
      simp [List.set, hx]
    | succ m =>
      simp only [List.set, List.map_cons, List.sum_cons]
      rw [ih m fun h => hv (Nat.succ_lt_succ h)]

theorem sum_map_set_le (g : chanState → Nat) (l : List chanState) (n : Nat) (v : chanState)
    (hv : ∀ h : n < l.length, g (l.get ⟨n, h⟩) ≤ g v) :
    (l.map g).sum ≤ ((l.set n v).map g).sum := by
  induction l generalizing n with
  | nil => simp
  | cons x xs ih =>
    cases n with
    | zero =>
      have hx : g x ≤ g v := hv (Nat.succ_pos _)
      simp only [List.set, List.map_cons, List.sum_cons]
      omega
    | succ m =>
      simp only [List.set, List.map_cons, List.sum_cons]
      have := ih m fun h => hv (Nat.succ_lt_succ h)
      omega

theorem getD_set_self (l : List chanState) (n : Nat) (v d : chanState)
    (h : n < l.length) : (l.set n v).getD n d = v := by
  induction l generalizing n with
  | nil => simp at h
  | cons x xs ih =>
    cases n with
    | zero => rfl
    | succ m => exact ih m (Nat.lt_of_succ_lt_succ h)

theorem getD_eq_get (l : List chanState) (n : Nat) (d : chanState)
    (h : n < l.length) : l.getD n d = l.get ⟨n, h⟩ := by
  induction l generalizing n with
  | nil => simp at h
  | cons x xs ih =>
    cases n with
    | zero => rfl
    | succ m => exact ih m (Nat.lt_of_succ_lt_succ h)

theorem updChan_length (s : session) (ch : Nat) (f : chanState → chanState) :
    (updChan s ch f).chans.length = s.chans.length := by
  unfold updChan
  split
  · simp
  · rfl

theorem updChan_getD (s : session) (ch : Nat) (f : chanState → chanState)
    (h : ch < s.chans.length) :
    (updChan s ch f).chans.getD ch chanState.init = f (s.chans.get ⟨ch, h⟩) := by
  unfold updChan
  rw [dif_pos h]
  exact getD_set_self _ _ _ _ h

theorem rx_overruns_updChan_eq (s : session) (ch : Nat) (f : chanState → chanState)
    (hf : ∀ c, (f c).overruns = c.overruns) :
    rx_overruns (updChan s ch f) = rx_overruns s := by
  unfold updChan
  split
  · exact sum_map_set_eq _ _ _ _ fun h => hf _
  · rfl

theorem rx_missing_updChan_eq (s : session) (ch : Nat) (f : chanState → chanState)
    (hf : ∀ c, (f c).missing = c.missing) :
    rx_missing (updChan s ch f) = rx_missing s := by
  unfold updChan
  split
  · exact sum_map_set_eq _ _ _ _ fun h => hf _
  · rfl

theorem stepChan_counters (c : chanState) (q : Nat) :
    c.overruns ≤ (stepChan c q).1.overruns ∧ c.missing ≤ (stepChan c q).1.missing := by
  unfold stepChan
  split
  · dsimp only
    split
    · exact ⟨Nat.le_refl _, Nat.le_refl _⟩
    · exact ⟨Nat.le_succ _, Nat.le_add_right _ _⟩
  · exact ⟨Nat.le_refl _, Nat.le_refl _⟩

theorem stepChan_stopped (c : chanState) (q : Nat) (h : c.streaming = false) :
    stepChan c q = (c, false) := by
  unfold stepChan
  rw [h]
  rfl

/-- Claim C1: sequence-gap detection.  While streaming, a frame whose
sequence number leaves a nonzero gap to the expected cursor increments
the overrun counter by exactly one and the missing-frame counter by the
gap size, and processing continues from the new sequence value.
Concretely, from a freshly started channel, frames 0,1,3,4 leave
`rx_overruns() = 1` and `rx_missing() = 1`, and frames 0,1,2,5,6 leave
`rx_overruns() = 1` and `rx_missing() = 2`. -/
theorem C1_sequence_gap_accounting :
    (∀ (c : chanState) (q : Nat), c.streaming = true → seqGap q c.expected ≠ 0 →
      stepChan c q = ({ c with expected := (q + 1) % 4294967296,
                               overruns := c.overruns + 1,
                               missing := c.missing + seqGap q c.expected }, true)) ∧
    rx_overruns (feedSeqs startedSession 0 [0, 1, 3, 4]).1 = 1 ∧
    rx_missing (feedSeqs startedSession 0 [0, 1, 3, 4]).1 = 1 ∧
    rx_overruns (feedSeqs startedSession 0 [0, 1, 2, 5, 6]).1 = 1 ∧
    rx_missing (feedSeqs startedSession 0 [0, 1, 2, 5, 6]).1 = 2 := by
  refine ⟨?_, by decide, by decide, by decide, by decide⟩
  intro c q hs hg
  unfold stepChan
  rw [hs]
  simp only [if_true, if_neg hg]

/-- Witness for C1: a streaming channel expecting sequence value 2 that
receives sequence value 5 counts one overrun and three missing frames. -/
theorem C1_witness :
    stepChan ⟨true, 2, 0, 0⟩ 5
      = (⟨true, (5 + 1) % 4294967296, 0 + 1, 0 + seqGap 5 2⟩, true) :=
  C1_sequence_gap_accounting.1 ⟨true, 2, 0, 0⟩ 5 rfl (by decide)

/-- Claim C6: for a valid channel, a successful `start_rx_streaming`
immediately followed by `stop_rx_streaming` reports success for the
start, leaves the channel STOPPED, and leaves `rx_overruns()` and
`rx_missing()` unchanged. -/
theorem C6_start_then_stop (s : session) (ch : Nat) (ok : Bool)
    (hch : ch < MAX_CHAN) (hlen : s.chans.length = MAX_CHAN) :
    (start_rx_streaming s ch true).2 = true ∧
    ((stop_rx_streaming (start_rx_streaming s ch true).1 ch ok).1.chans.getD ch
        chanState.init).streaming = false ∧
    rx_overruns (stop_rx_streaming (start_rx_streaming s ch true).1 ch ok).1
      = rx_overruns s ∧
    rx_missing (stop_rx_streaming (start_rx_streaming s ch true).1 ch ok).1
      = rx_missing s := by
  have hch' : ch < s.chans.length := by rw [hlen]; exact hch
  have hvc : validChan ch = true := by unfold validChan; exact decide_eq_true hch
  have hcond : (validChan ch && true && decide (ch < s.chans.length)) = true := by
    rw [hvc, decide_eq_true hch']
    rfl
  have hstart : start_rx_streaming s ch true
      = (updChan s ch fun c => { c with streaming := true, expected := 0 }, true) := by
    unfold start_rx_streaming
    rw [hcond]
    rfl
  have hch'' : ch < (start_rx_streaming s ch true).1.chans.length := by
    rw [hstart]
    rw [updChan_length]
    exact hch'
  have hstop : stop_rx_streaming (start_rx_streaming s ch true).1 ch ok
      = (updChan (start_rx_streaming s ch true).1 ch
          fun c => { c with streaming := false }, ok) := by
    unfold stop_rx_streaming
    rw [hvc]
    rfl
  have e1 : rx_overruns (updChan (start_rx_streaming s ch true).1 ch
      fun c => { c with streaming := false }) = rx_overruns (start_rx_streaming s ch true).1 :=
    rx_overruns_updChan_eq _ _ _ fun c => rfl
  have e2 : rx_overruns (updChan s ch
      fun c => { c with streaming := true, expected := 0 }) = rx_overruns s :=
    rx_overruns_updChan_eq _ _ _ fun c => rfl
  have e3 : rx_missing (updChan (start_rx_streaming s ch true).1 ch
      fun c => { c with streaming := false }) = rx_missing (start_rx_streaming s ch true).1 :=
    rx_missing_updChan_eq _ _ _ fun c => rfl
  have e4 : rx_missing (updChan s ch
      fun c => { c with streaming := true, expected := 0 }) = rx_missing s :=
    rx_missing_updChan_eq _ _ _ fun c => rfl
  refine ⟨by rw [hstart], ?_, ?_, ?_⟩
  · rw [hstop]
    dsimp only
    rw [updChan_getD _ _ _ hch'']
  · rw [hstop]
    dsimp only
    rw [e1, hstart]
    dsimp only
    exact e2
  · rw [hstop]
    dsimp only
    rw [e3, hstart]
    dsimp only
    exact e4

/-- Witness for C6: start then stop on channel 0 of a fresh session. -/
theorem C6_witness :
    (start_rx_streaming session.init 0 true).2 = true ∧
    ((stop_rx_streaming (start_rx_streaming session.init 0 true).1 0 false).1.chans.getD 0
        chanState.init).streaming = false ∧
    rx_overruns (stop_rx_streaming (start_rx_streaming session.init 0 true).1 0 false).1
      = rx_overruns session.init ∧
    rx_missing (stop_rx_streaming (start_rx_streaming session.init 0 true).1 0 false).1
      = rx_missing session.init :=
  C6_start_then_stop session.init 0 false (by decide) (by decide)

theorem feedSeqs_stopped (qs : List Nat) (s : session) (ch : Nat)
    (h : (s.chans.getD ch chanState.init).streaming = false) :
    (feedSeqs s ch qs).2 = 0 := by
  induction qs generalizing s with
  | nil => rfl
  | cons q rest ih =>
    show (if (processStreamData s ch q).2 then 1 else 0)
        + (feedSeqs (processStreamData s ch q).1 ch rest).2 = 0
    by_cases hch : ch < s.chans.length
    · rw [getD_eq_get _ _ _ hch] at h
      have hstep := stepChan_stopped (s.chans.get ⟨ch, hch⟩) q h
      have hflag : (processStreamData s ch q).2 = false := by
        show (if hh : ch < s.chans.length
            then (stepChan (s.chans.get ⟨ch, hh⟩) q).2 else false) = false
        rw [dif_pos hch, hstep]
      have hnext : ((processStreamData s ch q).1.chans.getD ch
          chanState.init).streaming = false := by
        show ((updChan s ch fun c => (stepChan c q).1).chans.getD ch
            chanState.init).streaming = false
        rw [updChan_getD _ _ _ hch]
        show ((stepChan (s.chans.get ⟨ch, hch⟩) q).1).streaming = false
        rw [hstep]
        exact h
      rw [hflag, ih _ hnext]
      rfl
    · have hflag : (processStreamData s ch q).2 = false := by
        show (if hh : ch < s.chans.length
            then (stepChan (s.chans.get ⟨ch, hh⟩) q).2 else false) = false
        rw [dif_neg hch]
      have hupd : (processStreamData s ch q).1 = s := by
        show updChan s ch (fun c => (stepChan c q).1) = s
        unfold updChan
        rw [dif_neg hch]
      rw [hflag, hupd, ih _ h]
      rfl

/-- Claim C7: `stop_rx_streaming(channel)` transitions the channel to
STOPPED regardless of whether the STREAM_CONTROL stop command succeeded
(`ok` covers both), and afterwards no inbound STREAM_DATA frame for that
channel is ever delivered to the consumer. -/
theorem C7_stop_always_local (s : session) (ch : Nat) (ok : Bool) (qs : List Nat)
    (hch : ch < MAX_CHAN) (hlen : s.chans.length = MAX_CHAN) :
    ((stop_rx_streaming s ch ok).1.chans.getD ch chanState.init).streaming = false ∧
    (feedSeqs (stop_rx_streaming s ch ok).1 ch qs).2 = 0 := by
  have hch' : ch < s.chans.length := by rw [hlen]; exact hch
  have hvc : validChan ch = true := by unfold validChan; exact decide_eq_true hch
  have hstop : stop_rx_streaming s ch ok
      = (updChan s ch fun c => { c with streaming := false }, ok) := by
    unfold stop_rx_streaming
    rw [hvc]
    rfl
  have hstopped : ((stop_rx_streaming s ch ok).1.chans.getD ch
      chanState.init).streaming = false := by
    rw [hstop]
    dsimp only
    rw [updChan_getD _ _ _ hch']
  exact ⟨hstopped, feedSeqs_stopped qs _ ch hstopped⟩

/-- Witness for C7: stopping channel 0 with a failing stop command on a
freshly started session, then feeding three frames, delivers nothing. -/
theorem C7_witness :
    ((stop_rx_streaming startedSession 0 false).1.chans.getD 0
        chanState.init).streaming = false ∧
    (feedSeqs (stop_rx_streaming startedSession 0 false).1 0 [0, 1, 2]).2 = 0 :=
  C7_stop_always_local startedSession 0 false [0, 1, 2] (by decide) (by decide)

theorem updChan_chans (s : session) (ch : Nat) (f : chanState → chanState) :
    (updChan s ch f).chans = s.chans ∨
    ∃ h : ch < s.chans.length,
      (updChan s ch f).chans = s.chans.set ch (f (s.chans.get ⟨ch, h⟩)) := by
  unfold updChan
  split
  · rename_i h
    exact Or.inr ⟨h, rfl⟩
  · exact Or.inl rfl

theorem applyOp_chans (s : session) (op : sessionOp) :
    (applyOp s op).chans = s.chans ∨
    ∃ ch v, (applyOp s op).chans = s.chans.set ch v ∧
      ∀ h : ch < s.chans.length,
        (s.chans.get ⟨ch, h⟩).overruns ≤ v.overruns ∧
        (s.chans.get ⟨ch, h⟩).missing ≤ v.missing := by
  cases op with
  | startOp ch ok =>
    show ((start_rx_streaming s ch ok).1.chans = s.chans) ∨
      ∃ c2 v, (start_rx_streaming s ch ok).1.chans = s.chans.set c2 v ∧
        ∀ h : c2 < s.chans.length,
          (s.chans.get ⟨c2, h⟩).overruns ≤ v.overruns ∧
          (s.chans.get ⟨c2, h⟩).missing ≤ v.missing
    unfold start_rx_streaming
    split
    · dsimp only
      rcases updChan_chans s ch (fun c => { c with streaming := true, expected := 0 })
        with h | ⟨hlt, h⟩
      · exact Or.inl h
      · exact Or.inr ⟨ch, _, h, fun hh => ⟨Nat.le_refl _, Nat.le_refl _⟩⟩
    · exact Or.inl rfl
  | stopOp ch ok =>
    show ((stop_rx_streaming s ch ok).1.chans = s.chans) ∨
      ∃ c2 v, (stop_rx_streaming s ch ok).1.chans = s.chans.set c2 v ∧
        ∀ h : c2 < s.chans.length,
          (s.chans.get ⟨c2, h⟩).overruns ≤ v.overruns ∧
          (s.chans.get ⟨c2, h⟩).missing ≤ v.missing
    unfold stop_rx_streaming
    split
    · dsimp only
      rcases updChan_chans s ch (fun c => { c with streaming := false })
        with h | ⟨hlt, h⟩
      · exact Or.inl h
      · exact Or.inr ⟨ch, _, h, fun hh => ⟨Nat.le_refl _, Nat.le_refl _⟩⟩
    · exact Or.inl rfl
  | rxFrame ch q =>
    show ((processStreamData s ch q).1.chans = s.chans) ∨
      ∃ c2 v, (processStreamData s ch q).1.chans = s.chans.set c2 v ∧
        ∀ h : c2 < s.chans.length,
          (s.chans.get ⟨c2, h⟩).overruns ≤ v.overruns ∧
          (s.chans.get ⟨c2, h⟩).missing ≤ v.missing
    rcases updChan_chans s ch (fun c => (stepChan c q).1) with h | ⟨hlt, h⟩
    · exact Or.inl h
    · exact Or.inr ⟨ch, _, h, fun hh => stepChan_counters _ q⟩

theorem applyOp_mono (s : session) (op : sessionOp) :
    rx_overruns s ≤ rx_overruns (applyOp s op) ∧
    rx_missing s ≤ rx_missing (applyOp s op) := by
  rcases applyOp_chans s op with h | ⟨ch, v, hchans, hv⟩
  · unfold rx_overruns rx_missing
    rw [h]
    exact ⟨Nat.le_refl _, Nat.le_refl _⟩
  · unfold rx_overruns rx_missing
    rw [hchans]
    exact ⟨sum_map_set_le _ _ _ _ fun h => (hv h).1,
           sum_map_set_le _ _ _ _ fun h => (hv h).2⟩

/-- Claim C8: `rx_overruns()` and `rx_missing()` are zero at Session
creation and monotonically non-decreasing under every sequence of
streaming operations; the accessors are total functions of the session
state, valid in any state. -/
theorem C8_counters_monotone :
    (rx_overruns session.init = 0 ∧ rx_missing session.init = 0) ∧
    ∀ (s : session) (ops : List sessionOp),
      rx_overruns s ≤ rx_overruns (applyOps s ops) ∧
      rx_missing s ≤ rx_missing (applyOps s ops) := by
  refine ⟨⟨by decide, by decide⟩, ?_⟩
  intro s ops
  induction ops generalizing s with
  | nil => exact ⟨Nat.le_refl _, Nat.le_refl _⟩
  | cons op rest ih =>
    have h1 := applyOp_mono s op
    have h2 := ih (applyOp s op)
    unfold applyOps at h2 ⊢
    simp only [List.foldl_cons]
    exact ⟨Nat.le_trans h1.1 h2.1, Nat.le_trans h1.2 h2.2⟩

/-! ## Command-engine lemmas -/

theorem sendCmdAttempts_silent (device : Nat → devReply) (txnid : Nat)
    (hs : ∀ k, device k = .silent) :
    ∀ fuel attempt, sendCmdAttempts device txnid attempt fuel
      = (.commandTimeout, List.replicate fuel txnid) := by
  intro fuel
  induction fuel with
  | zero => intro attempt; rfl
  | succ f ih =>
    intro attempt
    unfold sendCmdAttempts
    rw [hs attempt]
    dsimp only
    rw [ih (attempt + 1)]
    rfl

theorem sendCmdAttempts_reject (device : Nat → devReply) (txnid : Nat) :
    ∀ (k fuel attempt : Nat), k < fuel →
      (∀ j, j < k → device (attempt + j) = .silent) →
      device (attempt + k) = .reject →
      sendCmdAttempts device txnid attempt fuel
        = (.commandRejected, List.replicate k txnid ++ [txnid]) := by
  intro k
  induction k with
  | zero =>
    intro fuel attempt hk hj hr
    cases fuel with
    | zero => omega
    | succ f =>
      unfold sendCmdAttempts
      rw [show attempt + 0 = attempt from rfl] at hr
      rw [hr]
      rfl
  | succ m ih =>
    intro fuel attempt hk hj hr
    cases fuel with
    | zero => omega
    | succ f =>
      unfold sendCmdAttempts
      have h0 : device attempt = .silent := by
        have := hj 0 (Nat.succ_pos m)
        rwa [show attempt + 0 = attempt from rfl] at this
      rw [h0]
      dsimp only
      rw [ih f (attempt + 1) (by omega)
        (fun j hjm => by
          have := hj (j + 1) (Nat.succ_lt_succ hjm)
          rwa [show attempt + (j + 1) = attempt + 1 + j by omega] at this)
        (by rwa [show attempt + 1 + m = attempt + (m + 1) by omega])]
      rfl

/-- Claim C2: on timeout the command is retried with the same
transaction id; a device that never answers causes `CommandTimeout`
after exactly `retryBound` attempts (all carrying the same transaction
id); and a response carrying an explicit rejection code causes
`CommandRejected` immediately, with no further attempt after the one
that was rejected. -/
theorem C2_retry_and_reject :
    (∀ (device : Nat → devReply) (txnid : Nat),
      (∀ k, device k = .silent) →
      send_command device txnid = (.commandTimeout, List.replicate retryBound txnid)) ∧
    (∀ (device : Nat → devReply) (txnid k : Nat),
      k < retryBound → (∀ j, j < k → device j = .silent) → device k = .reject →
      send_command device txnid = (.commandRejected, List.replicate k txnid ++ [txnid])) := by
  constructor
  · intro device txnid hs
    exact sendCmdAttempts_silent device txnid hs retryBound 0
  · intro device txnid k hk hj hr
    exact sendCmdAttempts_reject device txnid k retryBound 0 hk
      (fun j hjk => by
        have := hj j hjk
        rwa [show (0 : Nat) + j = j from Nat.zero_add j])
      (by rwa [show (0 : Nat) + k = k from Nat.zero_add k])

/-- Witness for C2: a device that never answers times out after three
sends of the same transaction id, and a device that rejects the first
attempt fails with `CommandRejected` after one send. -/
theorem C2_witness :
    send_command (fun _ => .silent) 7
      = (.commandTimeout, List.replicate retryBound 7) ∧
    send_command (fun _ => .reject) 9
      = (.commandRejected, List.replicate 0 9 ++ [9]) :=
  ⟨C2_retry_and_reject.1 (fun _ => .silent) 7 fun k => rfl,
   C2_retry_and_reject.2 (fun _ => .reject) 9 0 (by decide)
     (fun j hj => absurd hj (Nat.not_lt_zero j)) rfl⟩

/-! ## Transmit-pipeline lemmas -/

theorem attachFlags_cons (md : tx_metadata) (total i : Nat) (c : List Nat)
    (rest : List (List Nat)) :
    attachFlags md total i (c :: rest)
      = { items := c,
          sob := md.start_of_burst && decide (i = 0),
          eob := md.end_of_burst && decide (i + 1 = total),
          timestamp := md.timestamp } :: attachFlags md total (i + 1) rest := rfl

theorem attachFlags_length (md : tx_metadata) (total : Nat) :
    ∀ (cs : List (List Nat)) (i : Nat), (attachFlags md total i cs).length = cs.length := by
  intro cs
  induction cs with
  | nil => intro i; rfl
  | cons c rest ih =>
    intro i
    rw [attachFlags_cons, List.length_cons, List.length_cons, ih (i + 1)]

theorem attachFlags_map_sob_tail (md : tx_metadata) (total : Nat) :
    ∀ (cs : List (List Nat)) (i : Nat), i ≠ 0 →
      (attachFlags md total i cs).map txFragment.sob
        = List.replicate cs.length false := by
  intro cs
  induction cs with
  | nil => intro i hi; rfl
  | cons c rest ih =>
    intro i hi
    rw [attachFlags_cons, List.map_cons]
    dsimp only
    rw [ih (i + 1) (Nat.succ_ne_zero i)]
    have hd : (md.start_of_burst && decide (i = 0)) = false := by
      simp [hi]
    rw [hd]
    rfl

theorem attachFlags_map_sob (md : tx_metadata) (total : Nat) (c : List Nat)
    (rest : List (List Nat)) :
    (attachFlags md total 0 (c :: rest)).map txFragment.sob
      = md.start_of_burst :: List.replicate rest.length false := by
  rw [attachFlags_cons, List.map_cons]
  dsimp only
  rw [attachFlags_map_sob_tail md total rest 1 one_ne_zero]
  simp

theorem attachFlags_map_eob (md : tx_metadata) (total : Nat) :
    ∀ (cs : List (List Nat)) (i : Nat), cs ≠ [] → i + cs.length = total →
      (attachFlags md total i cs).map txFragment.eob
        = List.replicate (cs.length - 1) false ++ [md.end_of_burst] := by
  intro cs
  induction cs with
  | nil => intro i h; exact absurd rfl h
  | cons c rest ih =>
    intro i hne hlen
    cases rest with
    | nil =>
      rw [attachFlags_cons, List.map_cons]
      dsimp only
      have h1 : i + 1 = total := by simpa using hlen
      simp [h1]
      rfl
    | cons c2 rest2 =>
      rw [attachFlags_cons, List.map_cons]
      dsimp only
      have hne2 : i + 1 ≠ total := by
        simp only [List.length_cons] at hlen
        omega
      have hd : (md.end_of_burst && decide (i + 1 = total)) = false := by
        simp [hne2]
      rw [hd]
      rw [ih (i + 1) (by simp) (by
        simp only [List.length_cons] at hlen ⊢
        omega)]
      rfl

/-- Claim C4: for every transmit whose items are fragmented into `n ≥ 1`
frames, the Tx Metadata's start-of-burst flag is attached only to the
first fragment and the end-of-burst flag only to the last fragment: the
per-fragment flag lists are `sob :: false…` and `false… ++ [eob]`. -/
theorem C4_burst_flags (ch m : Nat) (items : List Nat) (md : tx_metadata)
    (frags : List txFragment) (h : tx_raw ch m items md = some frags)
    (hne : frags ≠ []) :
    frags.map txFragment.sob
      = md.start_of_burst :: List.replicate (frags.length - 1) false ∧
    frags.map txFragment.eob
      = List.replicate (frags.length - 1) false ++ [md.end_of_burst] := by
  unfold tx_raw at h
  by_cases hvc : validChan ch
  · rw [if_pos hvc, Option.some.injEq] at h
    cases hcs : chunksOf m items with
    | nil =>
      rw [hcs] at h
      exact absurd h.symm hne
    | cons c rest =>
      rw [hcs] at h
      subst h
      have hlen : (attachFlags md (c :: rest).length 0 (c :: rest)).length - 1
          = rest.length := by
        rw [attachFlags_length]
        rfl
      rw [hlen]
      exact ⟨attachFlags_map_sob md _ c rest,
        attachFlags_map_eob md _ (c :: rest) 0 (by simp) (Nat.zero_add _)⟩
  · rw [if_neg hvc] at h
    exact absurd h (by simp)

/-- Witness for C4: five items with a two-item-per-frame limit give 3
fragments; start-of-burst is on fragment 1 only and end-of-burst on
fragment 3 only. -/
theorem C4_witness :
    ([⟨[1, 2], true, false, 99⟩, ⟨[3, 4], false, false, 99⟩,
        ⟨[5], false, true, 99⟩] : List txFragment).map txFragment.sob
      = true :: List.replicate (3 - 1) false ∧
    ([⟨[1, 2], true, false, 99⟩, ⟨[3, 4], false, false, 99⟩,
        ⟨[5], false, true, 99⟩] : List txFragment).map txFragment.eob
      = List.replicate (3 - 1) false ++ [true] :=
  C4_burst_flags 0 2 [1, 2, 3, 4, 5] ⟨99, true, true⟩
    [⟨[1, 2], true, false, 99⟩, ⟨[3, 4], false, false, 99⟩, ⟨[5], false, true, 99⟩]
    rfl (by decide)

/-- Claim C5: in the `tx_32fc` conversion with IQ scale `(1, 1)`, the
complex sample `(1.0, -1.0)` converts to the maximum positive
fixed-point value for I and the maximum negative fixed-point value for
Q, and every conversion result saturates to the 16-bit fixed-point
range rather than wrapping around. -/
theorem C5_tx_32fc_saturation :
    tx_32fc_convert 1 (-1) 1 1 = (fixedMax, fixedMin) ∧
    fixedMax = 32767 ∧ fixedMin = -32768 ∧
    (∀ x s : ℚ, fixedMin ≤ scaleAndClamp x s ∧ scaleAndClamp x s ≤ fixedMax) := by
  refine ⟨?_, rfl, rfl, ?_⟩
  · have h1 : scaleAndClamp 1 1 = fixedMax := by
      norm_num [scaleAndClamp, fixedMax, fixedMin]
    have h2 : scaleAndClamp (-1) 1 = fixedMin := by
      norm_num [scaleAndClamp, fixedMax, fixedMin]
    unfold tx_32fc_convert
    rw [h1, h2]
  · intro x s
    constructor
    · exact le_max_left _ _
    · refine max_le ?_ (min_le_left _ _)
      norm_num [fixedMin, fixedMax]

/-- Claim C9: `MAX_CHAN = 30`, a channel index is valid only in
`[0, MAX_CHAN)`, and every per-channel operation (start, stop,
rx_samples, transmit) fails on a channel index `≥ 30`; in particular
channel 30 itself is invalid. -/
theorem C9_channel_validity :
    MAX_CHAN = 30 ∧ validChan 30 = false ∧
    ∀ (s : session) (ch : Nat) (ok : Bool) (m : Nat) (items : List Nat)
      (md : tx_metadata), MAX_CHAN ≤ ch →
      validChan ch = false ∧
      start_rx_streaming s ch ok = (s, false) ∧
      stop_rx_streaming s ch ok = (s, false) ∧
      rx_samples s ch = false ∧
      tx_raw ch m items md = none := by
  refine ⟨rfl, rfl, ?_⟩
  intro s ch ok m items md hch
  have hvc : validChan ch = false := by
    unfold validChan
    exact decide_eq_false (by omega)
  refine ⟨hvc, ?_, ?_, ?_, ?_⟩
  · unfold start_rx_streaming
    rw [hvc]
    rfl
  · unfold stop_rx_streaming
    rw [hvc]
    rfl
  · unfold rx_samples
    rw [hvc]
    rfl
  · unfold tx_raw
    rw [hvc]
    rfl

/-- Witness for C9: channel 30 itself is rejected by every per-channel
operation. -/
theorem C9_witness :
    validChan 30 = false ∧
    start_rx_streaming session.init 30 true = (session.init, false) ∧
    stop_rx_streaming session.init 30 true = (session.init, false) ∧
    rx_samples session.init 30 = false ∧
    tx_raw 30 4 [1, 2] ⟨0, true, true⟩ = none :=
  C9_channel_validity.2.2 session.init 30 true 4 [1, 2] ⟨0, true, true⟩ (by decide)

/-- Claim C10: if an instance already exists for the device the address
resolves to, `make` (via `find_existing_or_make_new`) returns that
existing instance and leaves the registry unchanged; hence two make
calls resolving to the same device yield handles of the same underlying
session object. -/
theorem C10_instance_reuse :
    (∀ (r : registry) (key : String) (i : Nat),
      findSession r.entries key = some i →
      find_existing_or_make_new r key = (i, r)) ∧
    (∀ (r : registry) (key : String),
      (find_existing_or_make_new ((find_existing_or_make_new r key).2) key).1
        = (find_existing_or_make_new r key).1) := by
  constructor
  · intro r key i h
    unfold find_existing_or_make_new
    rw [h]
  · intro r key
    cases hf : findSession r.entries key with
    | some i =>
      have h1 : find_existing_or_make_new r key = (i, r) := by
        unfold find_existing_or_make_new
        rw [hf]
      rw [h1]
      dsimp only
      rw [h1]
    | none =>
      have h1 : find_existing_or_make_new r key
          = (r.nextId, ⟨(key, r.nextId) :: r.entries, r.nextId + 1⟩) := by
        unfold find_existing_or_make_new
        rw [hf]
      have h2 : findSession ((key, r.nextId) :: r.entries) key = some r.nextId := by
        unfold findSession
        rw [if_pos rfl]
      have h3 : find_existing_or_make_new ⟨(key, r.nextId) :: r.entries, r.nextId + 1⟩ key
          = (r.nextId, ⟨(key, r.nextId) :: r.entries, r.nextId + 1⟩) := by
        unfold find_existing_or_make_new
        rw [h2]
      rw [h1]
      dsimp only
      rw [h3]

/-- Witness for C10: looking up a device that is already registered
returns the existing instance id 0 and leaves the registry unchanged. -/
theorem C10_witness :
    find_existing_or_make_new ⟨[("00:50:c2:85:ff:01", 0)], 1⟩ "00:50:c2:85:ff:01"
      = (0, ⟨[("00:50:c2:85:ff:01", 0)], 1⟩) :=
  C10_instance_reuse.1 ⟨[("00:50:c2:85:ff:01", 0)], 1⟩ "00:50:c2:85:ff:01" 0 rfl
